import Mathlib

/-!
Verification development for `lp_monitor.py` (bella07021/lp-monitor-bot).

The Python source is shallowly embedded: each relevant Python function is
translated into a computable Lean definition over an explicit data model.
Loosely-typed JSON field values are modelled by `Value` (string or integer
payloads); Python floats parsed by `float(...)` are modelled as exact
rationals; a Python exception escaping a function is modelled by `Option`
(`none` = the call raised).  The MD5 digest used by
`calculate_position_hash` is modelled by its pre-image string: the source
compares `md5(s1) == md5(s2)`, which (absent MD5 collisions) coincides
with `s1 == s2`, so hash equality is modelled as equality of the joined
key-field strings.
-/

/-- A loosely-typed JSON field value as delivered by the Dune result rows:
either a string or an integer.  (Python `str()` of these is exactly the
payload, resp. its decimal rendering.) -/
inductive Value where
  | vStr (s : String)
  | vInt (n : Int)
  deriving DecidableEq, Repr

/-- Python `str(v)` for a `Value`. -/
def strOfValue : Value → String
  | .vStr s => s
  | .vInt n => toString n

/-- One LP position record (a Dune result row), holding the fields the
program reads.  `none` models the key being absent from the dict. -/
structure Position where
  tokenId : Option Value := none
  liquidity_L : Option Value := none
  amount0 : Option Value := none
  amount1 : Option Value := none
  usd_value : Option Value := none
  p_lower_uset : Option Value := none
  p_upper_uset : Option Value := none
  status : Option Value := none
  deriving DecidableEq, Repr

/-- Python `str(position.get(field, ''))`: stringify the field, with the
empty string when the field is absent. -/
def pyGet (v : Option Value) : String :=
  match v with
  | some v => strOfValue v
  | none => ""

/-- `calculate_position_hash` (src lines 120-130): the source joins the
stringified key fields with `'-'` and MD5-hashes the result; we model the
digest by the joined string itself (digest equality = string equality,
absent MD5 collisions). -/
def calculate_position_hash (p : Position) : String :=
  pyGet p.tokenId ++ "-" ++ pyGet p.liquidity_L ++ "-" ++ pyGet p.amount0
    ++ "-" ++ pyGet p.amount1 ++ "-" ++ pyGet p.usd_value

/-- The string-normalized key `str(p['tokenId'])`; `none` when the record
lacks the `tokenId` field (in which case the source raises `KeyError`). -/
def posKey (p : Position) : Option String :=
  p.tokenId.map strOfValue

/-- Key set of the Python dict `{str(p['tokenId']): p for p in ps}`,
as a duplicate-free list (first-occurrence order). -/
def dictKeys (ps : List Position) : List String :=
  (ps.filterMap posKey).dedup

/-- Lookup in the Python dict `{str(p['tokenId']): p for p in ps}`:
comprehension assignment is last-write-wins, so the value is the last
record of `ps` carrying key `k`. -/
def dictGet (ps : List Position) (k : String) : Option Position :=
  ps.reverse.find? (fun p => decide (posKey p = some k))

/-- Does every record carry a `tokenId` field?  Building either dict in
`compare_positions` raises `KeyError` as soon as one does not. -/
def tokenedAll (ps : List Position) : Bool :=
  ps.all (fun p => p.tokenId.isSome)

/-- The `added` partition: records of `new` whose key is absent from
`old`'s dict (source lines 145-146; Python set iteration order is
unspecified, so only membership is meaningful). -/
def addedList (old new : List Position) : List Position :=
  ((dictKeys new).filter (fun k => decide (k ∉ dictKeys old))).filterMap (dictGet new)

/-- The `removed` partition (source lines 149-150). -/
def removedList (old new : List Position) : List Position :=
  ((dictKeys old).filter (fun k => decide (k ∉ dictKeys new))).filterMap (dictGet old)

/-- The `modified` partition: `{old, new}` pairs for common keys whose
fingerprints differ (source lines 153-160). -/
def modifiedList (old new : List Position) : List (Position × Position) :=
  ((dictKeys old).filter (fun k => decide (k ∈ dictKeys new))).filterMap
    (fun k =>
      (dictGet old k).bind fun po =>
        (dictGet new k).bind fun pn =>
          if calculate_position_hash po = calculate_position_hash pn then none
          else some (po, pn))

/-- The ChangeSet built by `compare_positions` (source lines 134-139);
`timestamp` holds `datetime.now().isoformat()` read at call time. -/
structure Changes where
  added : List Position
  removed : List Position
  modified : List (Position × Position)
  timestamp : String
  deriving DecidableEq, Repr

/-- `compare_positions` (src lines 132-162).  `now` is the value of
`datetime.now().isoformat()` at the call.  Result `none` models the
`KeyError` raised while building the dicts when some record lacks
`tokenId`. -/
def compare_positions (old new : List Position) (now : String) : Option Changes :=
  if tokenedAll old && tokenedAll new then
    some { added := addedList old new
           removed := removedList old new
           modified := modifiedList old new
           timestamp := now }
  else
    none

/-- Decimal digits to a natural number. -/
def digitsToNat (l : List Char) : Nat :=
  l.foldl (fun a c => 10 * a + (c.toNat - 48)) 0

/-- Exponent part of a Python float literal (after the `e`/`E`). -/
def parseExp (cs : List Char) : Option Int :=
  match cs with
  | '+' :: ds => if !ds.isEmpty && ds.all Char.isDigit then some (digitsToNat ds : Int) else none
  | '-' :: ds => if !ds.isEmpty && ds.all Char.isDigit then some (-(digitsToNat ds : Int)) else none
  | ds => if !ds.isEmpty && ds.all Char.isDigit then some (digitsToNat ds : Int) else none

/-- Mantissa (`digits`, `digits.digits`, `.digits`, `digits.`) of a Python
float literal; returns its exact value and the unconsumed characters. -/
def parseMantissa (cs : List Char) : Option (ℚ × List Char) :=
  let ip := cs.takeWhile Char.isDigit
  let rest := cs.dropWhile Char.isDigit
  match rest with
  | '.' :: rest2 =>
    let fp := rest2.takeWhile Char.isDigit
    let rest3 := rest2.dropWhile Char.isDigit
    if ip.isEmpty && fp.isEmpty then none
    else some ((digitsToNat ip : ℚ) + (digitsToNat fp : ℚ) / (10 : ℚ) ^ fp.length, rest3)
  | _ => if ip.isEmpty then none else some ((digitsToNat ip : ℚ), rest)

/-- Unsigned Python float literal: mantissa plus optional exponent. -/
def pyFloatPos (cs : List Char) : Option ℚ := do
  let (m, rest) ← parseMantissa cs
  match rest with
  | [] => some m
  | 'e' :: es => (parseExp es).map (fun e => m * (10 : ℚ) ^ e)
  | 'E' :: es => (parseExp es).map (fun e => m * (10 : ℚ) ^ e)
  | _ => none

/-- Strip leading and trailing whitespace (Python `float` accepts
surrounding whitespace). -/
def trimChars (cs : List Char) : List Char :=
  ((cs.dropWhile Char.isWhitespace).reverse.dropWhile Char.isWhitespace).reverse

/-- Python `'+' in s`: for the one-character needle this is character
membership. -/
def containsPlus (s : String) : Bool :=
  s.data.contains '+'

/-- Python `float(s)` on a string, modelled as an exact rational:
optional surrounding whitespace, optional sign, decimal mantissa,
optional exponent.  `none` models a raised `ValueError`.  (Finite
binary-float rounding and the `inf`/`nan` literals are abstracted away:
values are kept exact.) -/
def pyFloat? (s : String) : Option ℚ :=
  match trimChars s.data with
  | '+' :: rest => pyFloatPos rest
  | '-' :: rest => (pyFloatPos rest).map Neg.neg
  | rest => pyFloatPos rest

/-- Python `float(v)` on a loosely-typed field value. -/
def pyFloatOfValue : Value → Option ℚ
  | .vStr s => pyFloat? s
  | .vInt n => some (n : ℚ)

/-- `float(position.get('usd_value', 0))` — the absent field defaults to
`0`; a non-numeric string raises (`none`). -/
def usdVal? (p : Position) : Option ℚ :=
  pyFloatOfValue (p.usd_value.getD (.vInt 0))

/-- `position.get('status') == 'ACTIVE'` (also equals
`position.get('status', 'UNKNOWN') == 'ACTIVE'`). -/
def statusActive (p : Position) : Bool :=
  decide (p.status = some (Value.vStr "ACTIVE"))

/-- Round a rational to the nearest integer, ties to even (the rounding
used by Python's fixed-point float formatting). -/
def roundHalfEven (x : ℚ) : Int :=
  let f := ⌊x⌋
  let r := x - (f : ℚ)
  if r < 1 / 2 then f
  else if r > 1 / 2 then f + 1
  else if f % 2 = 0 then f else f + 1

/-- Left-pad the decimal rendering of `n` with zeros to width `w`. -/
def padLeft0 (w : Nat) (n : Nat) : String :=
  let s := toString n
  if s.length < w then String.mk (List.replicate (w - s.length) '0') ++ s else s

/-- Insert thousands separators: input is the reversed digit list. -/
def group3 : List Char → List Char
  | a :: b :: c :: rest =>
    if rest.isEmpty then [a, b, c] else a :: b :: c :: ',' :: group3 rest
  | l => l

/-- Thousands-separate a decimal digit string. -/
def commify (s : String) : String :=
  String.mk (group3 s.data.reverse).reverse

/-- Python `f"{x:,.2f}"`: thousands separators, two decimal places. -/
def formatMoney (q : ℚ) : String :=
  let cents := roundHalfEven (q * 100)
  let sign := if cents < 0 then "-" else ""
  let n := cents.natAbs
  sign ++ commify (toString (n / 100)) ++ "." ++ padLeft0 2 (n % 100)

/-- Python `f"{x:.4f}"`: four decimal places, no separators. -/
def formatFixed4 (q : ℚ) : String :=
  let u := roundHalfEven (q * 10000)
  let sign := if u < 0 then "-" else ""
  let n := u.natAbs
  sign ++ toString (n / 10000) ++ "." ++ padLeft0 4 (n % 10000)

/-- Python `f"{x:.2e}"` for a positive rational (only reached when
`x > 1000000`): mantissa rounded to two decimals, two-digit signed
exponent. -/
def formatSci2 (q : ℚ) : String :=
  let e := (toString (⌊q⌋.toNat)).length - 1
  let m := (roundHalfEven (q / (10 : ℚ) ^ e * 100)).natAbs
  let me := if 1000 ≤ m then (100, e + 1) else (m, e)
  toString (me.1 / 100) ++ "." ++ padLeft0 2 (me.1 % 100)
    ++ "e+" ++ padLeft0 2 me.2

/-- The local helper `format_price` of `format_position_display`
(src lines 173-183): a `'+'`-containing string renders as `∞`; otherwise
parse as float, scientific notation above 1,000,000, else four decimals;
a parse failure renders the original value's `str()`. -/
def format_price (v : Value) : String :=
  match v with
  | .vStr s =>
    if containsPlus s then "∞"
    else
      match pyFloat? s with
      | some q => if q > 1000000 then formatSci2 q else formatFixed4 q
      | none => s
  | .vInt n =>
    if (n : ℚ) > 1000000 then formatSci2 (n : ℚ) else formatFixed4 (n : ℚ)

/-- `format_position_display` (src lines 164-194); `none` models the
`ValueError` raised by `float(position.get('usd_value', 0))`. -/
def format_position_display (p : Position) : Option String := do
  let v ← usdVal? p
  let tid := pyGet p.tokenId
  let pl := p.p_lower_uset.getD (.vInt 0)
  let pu := p.p_upper_uset.getD (.vInt 0)
  some ("  • NFT#" ++ tid
    ++ "\n    💰 总价值: $" ++ formatMoney v
    ++ "\n    📈 价格区间: " ++ format_price pl ++ " - " ++ format_price pu ++ " USDT"
    ++ "\n    🎯 状态: " ++ (if statusActive p then "🟢 ACTIVE" else "🟡 OUT_OF_RANGE"))

/-- Sort key domain of `get_sort_key`: either `float('inf')` or a finite
value. -/
inductive SortKey where
  | inf
  | val (q : ℚ)
  deriving DecidableEq, Repr

/-- Order on sort keys, `float('inf')` greatest. -/
def sortKeyLe : SortKey → SortKey → Bool
  | _, .inf => true
  | .inf, .val _ => false
  | .val a, .val b => decide (a ≤ b)

/-- The local `get_sort_key` of `format_change_message` (src lines
238-245): a `'+'`-containing string sorts as `float('inf')`; otherwise
the parsed float; on parse failure, `0`; an absent field defaults to
`0`. -/
def get_sort_key (p : Position) : SortKey :=
  match p.p_upper_uset.getD (.vInt 0) with
  | .vStr s =>
    if containsPlus s then .inf
    else
      match pyFloat? s with
      | some q => .val q
      | none => .val 0
  | .vInt n => .val (n : ℚ)

/-- Stable descending insertion: `a` is placed before the first element
whose key is not above `a`'s, so elements with equal keys keep their
original relative order. -/
def insertPosDesc (a : Position) : List Position → List Position
  | [] => [a]
  | b :: l =>
    if sortKeyLe (get_sort_key b) (get_sort_key a) then a :: b :: l
    else b :: insertPosDesc a l

/-- `sorted(current_positions, key=get_sort_key, reverse=True)`: Python's
sort is stable, and `reverse=True` reverses comparisons while keeping
ties in original order; a stable sort's output is uniquely determined by
the key order and stability, so it is modelled by a stable descending
insertion sort. -/
def pySorted : List Position → List Position
  | [] => []
  | a :: rest => insertPosDesc a (pySorted rest)

/-- One example line of the `added`/`removed` sections (src lines
204-206): `pos['tokenId']` raises when absent, and the `usd_value` parse
may raise. -/
def entryLine (p : Position) : Option String := do
  let t ← p.tokenId
  let v ← usdVal? p
  some ("  • NFT#" ++ strOfValue t ++ " - $" ++ formatMoney v ++ "\n")

/-- One example entry of the `modified` section (src lines 222-228). -/
def modEntry (pr : Position × Position) : Option String := do
  let oldv ← usdVal? pr.1
  let newv ← usdVal? pr.2
  let t ← pr.1.tokenId
  some ("  • NFT#" ++ strOfValue t ++ "\n    价值: $" ++ formatMoney oldv
    ++ " → $" ++ formatMoney newv ++ "\n")

/-- The Python `for pos in l: message += line(pos)` accumulation. -/
def appendLines (f : α → Option String) : List α → String → Option String
  | [], acc => some acc
  | p :: l, acc => do appendLines f l (acc ++ (← f p))

/-- The `added` section (src lines 202-209): skipped when empty,
otherwise a count line, the first 3 entries, an "N more" line when more
than 3, and a blank line. -/
def addedBlock (l : List Position) (acc : String) : Option String :=
  if l.isEmpty then some acc
  else do
    let acc := acc ++ "🆕 新增头寸: " ++ toString l.length ++ "个\n"
    let acc ← appendLines entryLine (l.take 3) acc
    let acc := if 3 < l.length then acc ++ "  ... 还有" ++ toString (l.length - 3) ++ "个\n" else acc
    some (acc ++ "\n")

/-- The `removed` section (src lines 211-218). -/
def removedBlock (l : List Position) (acc : String) : Option String :=
  if l.isEmpty then some acc
  else do
    let acc := acc ++ "❌ 移除头寸: " ++ toString l.length ++ "个\n"
    let acc ← appendLines entryLine (l.take 3) acc
    let acc := if 3 < l.length then acc ++ "  ... 还有" ++ toString (l.length - 3) ++ "个\n" else acc
    some (acc ++ "\n")

/-- The `modified` section (src lines 220-231): first 2 entries, "N more"
when more than 2. -/
def modifiedBlock (l : List (Position × Position)) (acc : String) : Option String :=
  if l.isEmpty then some acc
  else do
    let acc := acc ++ "📝 修改头寸: " ++ toString l.length ++ "个\n"
    let acc ← appendLines modEntry (l.take 2) acc
    let acc := if 2 < l.length then acc ++ "  ... 还有" ++ toString (l.length - 2) ++ "个\n" else acc
    some (acc ++ "\n")

/-- The loop over `enumerate(sorted_positions[:5])` (src lines 250-253):
`i` is the running index, `slen` the length of the full sorted list; a
`"\n\n"` separator follows entry `i` when `i < min(4, slen - 1)`. -/
def renderTop : List Position → Nat → Nat → String → Option String
  | [], _, _, acc => some acc
  | p :: rest, i, slen, acc => do
    let d ← format_position_display p
    renderTop rest (i + 1) slen
      (acc ++ d ++ (if i < min 4 (slen - 1) then "\n\n" else ""))

/-- Monadic map over `Option`: `none` as soon as one element fails
(Python's generator raising mid-iteration). -/
def mapOpt (f : α → Option β) : List α → Option (List β)
  | [] => some []
  | a :: l =>
    match f a, mapOpt f l with
    | some b, some bs => some (b :: bs)
    | _, _ => none

/-- `sum(float(p.get('usd_value', 0)) for p in ps)` (src line 258);
`none` models a `ValueError` on a non-numeric field. -/
def totalValue? (ps : List Position) : Option ℚ := do
  let vs ← mapOpt usdVal? ps
  some (vs.foldl (· + ·) 0)

/-- The current-state body of `format_change_message` (src lines
236-263): skipped entirely (no footer) when `current_positions` is
empty; otherwise the top 5 of the descending sort, then the aggregate
stats line over ALL positions, then the "not shown" line when more than
5. -/
def currentBlock (ps : List Position) (acc : String) : Option String :=
  if ps.isEmpty then some acc
  else do
    let sorted := pySorted ps
    let acc ← renderTop (sorted.take 5) 0 sorted.length acc
    let tv ← totalValue? ps
    let acc := acc ++ "\n\n📈 统计: " ++ toString ps.length ++ "个头寸, "
      ++ toString (ps.filter statusActive).length ++ "个活跃, 总价值: $" ++ formatMoney tv
    some (if 5 < ps.length then
            acc ++ "\n... 还有 " ++ toString (ps.length - 5) ++ " 个头寸未显示"
          else acc)

/-- `format_change_message` (src lines 196-265).  `now` is the value of
`datetime.now().strftime('%Y-%m-%d %H:%M:%S')` read at the call; `none`
models an uncaught exception (missing `tokenId` in a change entry or a
non-numeric `usd_value`). -/
def format_change_message (changes : Changes) (current_positions : List Position)
    (now : String) : Option String := do
  let m := "🔔 LP头寸变动警报\n⏰ 时间: " ++ now ++ "\n\n"
  let m ← addedBlock changes.added m
  let m ← removedBlock changes.removed m
  let m ← modifiedBlock changes.modified m
  currentBlock current_positions (m ++ "📊 当前状态:\n\n")

/-- The payload handed to `save_current_data` (src lines 333-338). -/
structure NewData where
  positions : List Position
  timestamp : String
  total_count : Nat
  total_value : ℚ
  deriving DecidableEq, Repr

/-- How a `monitor()` run ends: `fetchFailed` = `execute_dune_query`
returned `None` and the run returned early; `crashed` = an uncaught
exception aborted the run; `completed c` = the run returned the
ChangeSet `c`. -/
inductive RunOutcome where
  | fetchFailed
  | crashed
  | completed (c : Changes)
  deriving DecidableEq, Repr

/-- Observable effects of one `monitor()` run: what was passed to
`save_current_data` (`none` = never called, stored snapshot unchanged),
whether the Telegram send was attempted, and how the run ended. -/
structure RunResult where
  persisted : Option NewData
  notified : Bool
  outcome : RunOutcome
  deriving DecidableEq, Repr

/-- `monitor` (src lines 313-361).  `oldPositions` is the stored
snapshot's position list, `fetched` the result of `execute_dune_query`
(`none` = transport error, terminal failure state, or poll timeout), and
`now` the clock reading.  The git publish step has no bearing on the
modelled effects (its failure is caught and logged). -/
def monitor (oldPositions : List Position) (fetched : Option (List Position))
    (now : String) : RunResult :=
  match fetched with
  | none => { persisted := none, notified := false, outcome := .fetchFailed }
  | some ps =>
    match compare_positions oldPositions ps now with
    | none => { persisted := none, notified := false, outcome := .crashed }
    | some changes =>
      match totalValue? ps with
      | none => { persisted := none, notified := false, outcome := .crashed }
      | some tv =>
        let nd : NewData :=
          { positions := ps, timestamp := now, total_count := ps.length, total_value := tv }
        if changes.added.isEmpty && changes.removed.isEmpty && changes.modified.isEmpty then
          { persisted := some nd, notified := false, outcome := .completed changes }
        else
          match format_change_message changes ps now with
          | none => { persisted := some nd, notified := false, outcome := .crashed }
          | some msg =>
            { persisted := some nd, notified := msg != "", outcome := .completed changes }

/-- Concatenate rendered entry lines in order. -/
def joinAll : List String → String
  | [] => ""
  | s :: l => s ++ joinAll l

/-- Spec reading of the `added` section (refinement target for C7): a
count line, then the first 3 entries in differ order joined, then an
"N more" line exactly when more than 3 entries exist, then a blank
line; skipped when the partition is empty. -/
def addedBlockSpec (l : List Position) (acc : String) : Option String :=
  if l.isEmpty then some acc
  else
    (mapOpt entryLine (l.take 3)).map (fun es =>
      acc ++ "🆕 新增头寸: " ++ toString l.length ++ "个\n" ++ joinAll es
        ++ (if 3 < l.length then "  ... 还有" ++ toString (l.length - 3) ++ "个\n" else "")
        ++ "\n")

/-- Spec reading of the `removed` section (refinement target for C7). -/
def removedBlockSpec (l : List Position) (acc : String) : Option String :=
  if l.isEmpty then some acc
  else
    (mapOpt entryLine (l.take 3)).map (fun es =>
      acc ++ "❌ 移除头寸: " ++ toString l.length ++ "个\n" ++ joinAll es
        ++ (if 3 < l.length then "  ... 还有" ++ toString (l.length - 3) ++ "个\n" else "")
        ++ "\n")

/-- Spec reading of the `modified` section (refinement target for C7):
first 2 entries, "N more" exactly when more than 2 exist. -/
def modifiedBlockSpec (l : List (Position × Position)) (acc : String) : Option String :=
  if l.isEmpty then some acc
  else
    (mapOpt modEntry (l.take 2)).map (fun es =>
      acc ++ "📝 修改头寸: " ++ toString l.length ++ "个\n" ++ joinAll es
        ++ (if 2 < l.length then "  ... 还有" ++ toString (l.length - 2) ++ "个\n" else "")
        ++ "\n")

/-- Join rendered entries with a blank line between consecutive ones. -/
def joinTwoNl : List String → String
  | [] => ""
  | [e] => e
  | e :: rest => e ++ "\n\n" ++ joinTwoNl rest

/-- The separator the source loop appends after entry `i` when the full
sorted list has `slen` elements (src lines 252-253). -/
def sepAfter (i slen : Nat) : String :=
  if i < min 4 (slen - 1) then "\n\n" else ""

/-- Rendered entries with positional separators, starting at index `i`. -/
def joinSep : List String → Nat → Nat → String
  | [], _, _ => ""
  | e :: es, i, slen => e ++ sepAfter i slen ++ joinSep es (i + 1) slen

/-- The footer of the current-state section (src lines 256-263): aggregate
stats over ALL positions, plus the "not shown" line exactly when more
than 5 positions exist. -/
def footerStr (ps : List Position) (tv : ℚ) : String :=
  "\n\n📈 统计: " ++ toString ps.length ++ "个头寸, "
    ++ toString (ps.filter statusActive).length ++ "个活跃, 总价值: $" ++ formatMoney tv
    ++ (if 5 < ps.length then "\n... 还有 " ++ toString (ps.length - 5) ++ " 个头寸未显示"
        else "")

/-- Spec reading of the current-state section (refinement target for C6):
render exactly the first 5 of the descending stable sort, in sorted
order, separated by blank lines, then the aggregate footer; skipped (no
footer at all) when `ps` is empty. -/
def currentBlockSpec (ps : List Position) (acc : String) : Option String :=
  if ps.isEmpty then some acc
  else
    (mapOpt format_position_display ((pySorted ps).take 5)).bind (fun es =>
      (totalValue? ps).map (fun tv => acc ++ joinTwoNl es ++ footerStr ps tv))

/- ==================== example inputs for witnesses ==================== -/

/-- Example: the old-side record of token 1. -/
def exP1 : Position := { tokenId := some (.vInt 1), usd_value := some (.vInt 100) }

/-- Example: token 1 with a changed `usd_value`. -/
def exP1v : Position := { tokenId := some (.vInt 1), usd_value := some (.vInt 150) }

/-- Example: a record only present on the new side. -/
def exP2 : Position := { tokenId := some (.vInt 2), usd_value := some (.vInt 50) }

/-- Example old snapshot. -/
def exOld : List Position := [exP1]

/-- Example new snapshot. -/
def exNew : List Position := [exP1v, exP2]

/-- The ChangeSet `compare_positions exOld exNew "T"` produces. -/
def exChanges : Changes :=
  { added := [exP2], removed := [], modified := [(exP1, exP1v)], timestamp := "T" }

/-- Example: a malformed record lacking the `tokenId` field. -/
def exNoTok : Position := { usd_value := some (.vInt 5) }

/-- The ChangeSet `compare_positions [exP1] [exP1v] "T"` produces. -/
def exChangesMod : Changes :=
  { added := [], removed := [], modified := [(exP1, exP1v)], timestamp := "T" }

/-- An empty ChangeSet. -/
def exEmptyChanges : Changes := { added := [], removed := [], modified := [], timestamp := "X" }

/-- A minimal well-formed position: only a `tokenId`. -/
def exT (t : Int) : Position := { tokenId := some (.vInt t) }

/-- Seven added positions, for the C7 truncation instance. -/
def ex7 : List Position := [exT 1, exT 2, exT 3, exT 4, exT 5, exT 6, exT 7]

/-- A position whose `p_upper_uset` is the `'+'`-bearing unbounded
sentinel. -/
def exU : Position := { tokenId := some (.vInt 9), p_upper_uset := some (.vStr "1e+400") }

/-- A position with `p_upper_uset = 10`. -/
def exTen : Position := { tokenId := some (.vInt 10), p_upper_uset := some (.vInt 10) }

/-- A position with `p_upper_uset = 5`. -/
def exFive : Position := { tokenId := some (.vInt 11), p_upper_uset := some (.vInt 5) }

/-- A position whose `p_upper_uset` fails numeric parsing (no `'+'`). -/
def exBad : Position := { tokenId := some (.vInt 12), p_upper_uset := some (.vStr "zz") }

/-- The message the formatter produces for an empty ChangeSet and the
single minimal position `exT 1` at clock reading `"T"`. -/
def exMsgOne : String :=
  "🔔 LP头寸变动警报\n⏰ 时间: T\n\n📊 当前状态:\n\n  • NFT#1\n    💰 总价值: $0.00\n    📈 价格区间: 0.0000 - 0.0000 USDT\n    🎯 状态: 🟡 OUT_OF_RANGE\n\n📈 统计: 1个头寸, 0个活跃, 总价值: $0.00"

/- ==================== lemmas ==================== -/

theorem mem_dictKeys {ps : List Position} {k : String} :
    k ∈ dictKeys ps ↔ ∃ p ∈ ps, posKey p = some k := by
  simp [dictKeys, List.mem_dedup, List.mem_filterMap]

theorem dictGet_eq_some {ps : List Position} {k : String} {p : Position}
    (h : dictGet ps k = some p) : p ∈ ps ∧ posKey p = some k := by
  have h1 := List.mem_of_find?_eq_some h
  have h2 := List.find?_some h
  simp only [decide_eq_true_eq] at h2
  exact ⟨List.mem_reverse.mp h1, h2⟩

theorem dictGet_isSome {ps : List Position} {k : String} (h : k ∈ dictKeys ps) :
    ∃ p, dictGet ps k = some p := by
  rw [mem_dictKeys] at h
  obtain ⟨p, hp, hk⟩ := h
  have hs : (dictGet ps k).isSome := by
    rw [dictGet, List.find?_isSome]
    exact ⟨p, List.mem_reverse.mpr hp, by simp [hk]⟩
  exact Option.isSome_iff_exists.mp hs

theorem mem_addedList {old new : List Position} {p : Position} :
    p ∈ addedList old new ↔
      ∃ k, k ∈ dictKeys new ∧ k ∉ dictKeys old ∧ dictGet new k = some p := by
  simp only [addedList, List.mem_filterMap, List.mem_filter, decide_eq_true_eq]
  constructor
  · rintro ⟨k, ⟨h1, h2⟩, h3⟩; exact ⟨k, h1, h2, h3⟩
  · rintro ⟨k, h1, h2, h3⟩; exact ⟨k, ⟨h1, h2⟩, h3⟩

theorem mem_removedList {old new : List Position} {p : Position} :
    p ∈ removedList old new ↔
      ∃ k, k ∈ dictKeys old ∧ k ∉ dictKeys new ∧ dictGet old k = some p := by
  simp only [removedList, List.mem_filterMap, List.mem_filter, decide_eq_true_eq]
  constructor
  · rintro ⟨k, ⟨h1, h2⟩, h3⟩; exact ⟨k, h1, h2, h3⟩
  · rintro ⟨k, h1, h2, h3⟩; exact ⟨k, ⟨h1, h2⟩, h3⟩

theorem mem_modifiedList {old new : List Position} {pr : Position × Position} :
    pr ∈ modifiedList old new ↔
      ∃ k, k ∈ dictKeys old ∧ k ∈ dictKeys new ∧
        dictGet old k = some pr.1 ∧ dictGet new k = some pr.2 ∧
        calculate_position_hash pr.1 ≠ calculate_position_hash pr.2 := by
  simp only [modifiedList, List.mem_filterMap, List.mem_filter, decide_eq_true_eq,
    Option.bind_eq_some]
  constructor
  · rintro ⟨k, ⟨h1, h2⟩, po, hpo, pn, hpn, hif⟩
    by_cases hh : calculate_position_hash po = calculate_position_hash pn
    · simp [hh] at hif
    · simp only [if_neg hh, Option.some.injEq] at hif
      subst hif
      exact ⟨k, h1, h2, hpo, hpn, hh⟩
  · rintro ⟨k, h1, h2, hpo, hpn, hh⟩
    refine ⟨k, ⟨h1, h2⟩, pr.1, hpo, pr.2, hpn, ?_⟩
    simp [if_neg hh]

theorem compare_positions_eq_some {old new : List Position} {now : String} {c : Changes}
    (h : compare_positions old new now = some c) :
    c.added = addedList old new ∧ c.removed = removedList old new ∧
    c.modified = modifiedList old new ∧ c.timestamp = now := by
  unfold compare_positions at h
  split at h
  · injection h with h; subst h; exact ⟨rfl, rfl, rfl, rfl⟩
  · cases h

/- ==================== claim theorems ==================== -/

/-- Claim C1: for every pair of position sequences, partitioning the
string-normalized `tokenId` keys into A (only in old), B (only in new),
C (common, equal fingerprints) and D (common, differing fingerprints),
`compare_positions` returns `added` containing exactly the new-side dict
records with keys in B, `removed` exactly the old-side dict records with
keys in A, `modified` exactly the `(old, new)` pairs for keys in D, and
no entry in any partition for a key in C. -/
theorem c1_diff_partition (old new : List Position) (now : String) (c : Changes)
    (h : compare_positions old new now = some c) :
    (∀ p, p ∈ c.added ↔
      ∃ k, k ∈ dictKeys new ∧ k ∉ dictKeys old ∧ dictGet new k = some p) ∧
    (∀ p, p ∈ c.removed ↔
      ∃ k, k ∈ dictKeys old ∧ k ∉ dictKeys new ∧ dictGet old k = some p) ∧
    (∀ pr, pr ∈ c.modified ↔
      ∃ k, k ∈ dictKeys old ∧ k ∈ dictKeys new ∧
        dictGet old k = some pr.1 ∧ dictGet new k = some pr.2 ∧
        calculate_position_hash pr.1 ≠ calculate_position_hash pr.2) ∧
    (∀ k po pn, dictGet old k = some po → dictGet new k = some pn →
      calculate_position_hash po = calculate_position_hash pn →
      (∀ p ∈ c.added, posKey p ≠ some k) ∧
      (∀ p ∈ c.removed, posKey p ≠ some k) ∧
      (∀ pr ∈ c.modified, posKey pr.1 ≠ some k)) := by
  obtain ⟨ha, hr, hm, -⟩ := compare_positions_eq_some h
  refine ⟨fun p => by rw [ha]; exact mem_addedList,
          fun p => by rw [hr]; exact mem_removedList,
          fun pr => by rw [hm]; exact mem_modifiedList,
          ?_⟩
  intro k po pn hpo hpn hh
  have hko : k ∈ dictKeys old :=
    mem_dictKeys.mpr ⟨po, (dictGet_eq_some hpo).1, (dictGet_eq_some hpo).2⟩
  have hkn : k ∈ dictKeys new :=
    mem_dictKeys.mpr ⟨pn, (dictGet_eq_some hpn).1, (dictGet_eq_some hpn).2⟩
  refine ⟨?_, ?_, ?_⟩
  · intro p hp hkey
    rw [ha, mem_addedList] at hp
    obtain ⟨k', -, h2, h3⟩ := hp
    have hk' : k = k' := Option.some.inj (hkey.symm.trans (dictGet_eq_some h3).2)
    exact h2 (hk' ▸ hko)
  · intro p hp hkey
    rw [hr, mem_removedList] at hp
    obtain ⟨k', -, h2, h3⟩ := hp
    have hk' : k = k' := Option.some.inj (hkey.symm.trans (dictGet_eq_some h3).2)
    exact h2 (hk' ▸ hkn)
  · intro pr hp hkey
    rw [hm, mem_modifiedList] at hp
    obtain ⟨k', -, -, h3, h4, hneq⟩ := hp
    have hk' : k = k' := Option.some.inj (hkey.symm.trans (dictGet_eq_some h3).2)
    subst hk'
    have e1 : po = pr.1 := Option.some.inj (hpo.symm.trans h3)
    have e2 : pn = pr.2 := Option.some.inj (hpn.symm.trans h4)
    exact hneq (e1 ▸ e2 ▸ hh)

/-- Witness for C1 at a concrete input: token 2 appears only in the new
snapshot and lands in `added`; token 1 is common with a changed
`usd_value` and lands in `modified` as the `(old, new)` pair. -/
theorem c1_diff_partition_witness :
    exP2 ∈ exChanges.added ∧ (exP1, exP1v) ∈ exChanges.modified := by
  have h := c1_diff_partition exOld exNew "T" exChanges (by decide)
  exact ⟨(h.1 exP2).mpr ⟨"2", by decide, by decide, by decide⟩,
         (h.2.2.1 (exP1, exP1v)).mpr ⟨"1", by decide, by decide, by decide, by decide, by decide⟩⟩

/-- Claim C10: the three partitions are pairwise key-disjoint, `added`
entries are records of the new input, `removed` entries records of the
old input, and each `modified` pair's sides carry the same
string-normalized key. -/
theorem c10_partition_invariants (old new : List Position) (now : String) (c : Changes)
    (h : compare_positions old new now = some c) :
    (∀ p ∈ c.added, p ∈ new) ∧
    (∀ p ∈ c.removed, p ∈ old) ∧
    (∀ pr ∈ c.modified, pr.1 ∈ old ∧ pr.2 ∈ new ∧
      posKey pr.1 = posKey pr.2 ∧ (posKey pr.1).isSome) ∧
    (∀ p ∈ c.added, ∀ q ∈ c.removed, posKey p ≠ posKey q) ∧
    (∀ p ∈ c.added, ∀ pr ∈ c.modified, posKey p ≠ posKey pr.1) ∧
    (∀ q ∈ c.removed, ∀ pr ∈ c.modified, posKey q ≠ posKey pr.1) := by
  obtain ⟨ha, hr, hm, -⟩ := compare_positions_eq_some h
  have added_key : ∀ p ∈ c.added, ∃ k, posKey p = some k ∧ k ∈ dictKeys new ∧ k ∉ dictKeys old := by
    intro p hp
    rw [ha, mem_addedList] at hp
    obtain ⟨k, h1, h2, h3⟩ := hp
    exact ⟨k, (dictGet_eq_some h3).2, h1, h2⟩
  have removed_key : ∀ p ∈ c.removed, ∃ k, posKey p = some k ∧ k ∈ dictKeys old ∧ k ∉ dictKeys new := by
    intro p hp
    rw [hr, mem_removedList] at hp
    obtain ⟨k, h1, h2, h3⟩ := hp
    exact ⟨k, (dictGet_eq_some h3).2, h1, h2⟩
  have modified_key : ∀ pr ∈ c.modified, ∃ k, posKey pr.1 = some k ∧ posKey pr.2 = some k ∧
      k ∈ dictKeys old ∧ k ∈ dictKeys new := by
    intro pr hp
    rw [hm, mem_modifiedList] at hp
    obtain ⟨k, h1, h2, h3, h4, -⟩ := hp
    exact ⟨k, (dictGet_eq_some h3).2, (dictGet_eq_some h4).2, h1, h2⟩
  refine ⟨?_, ?_, ?_, ?_, ?_, ?_⟩
  · intro p hp
    rw [ha, mem_addedList] at hp
    obtain ⟨k, -, -, h3⟩ := hp
    exact (dictGet_eq_some h3).1
  · intro p hp
    rw [hr, mem_removedList] at hp
    obtain ⟨k, -, -, h3⟩ := hp
    exact (dictGet_eq_some h3).1
  · intro pr hp
    have hk := modified_key pr hp
    rw [hm, mem_modifiedList] at hp
    obtain ⟨k, -, -, h3, h4, -⟩ := hp
    obtain ⟨k', e1, e2, -, -⟩ := hk
    exact ⟨(dictGet_eq_some h3).1, (dictGet_eq_some h4).1, e1.trans e2.symm, by simp [e1]⟩
  · intro p hp q hq
    obtain ⟨k, e1, hk1, hk2⟩ := added_key p hp
    obtain ⟨k', e2, hk3, -⟩ := removed_key q hq
    rw [e1, e2]
    intro he
    exact hk2 ((Option.some.inj he) ▸ hk3)
  · intro p hp pr hpr
    obtain ⟨k, e1, -, hk2⟩ := added_key p hp
    obtain ⟨k', e2, -, hk3, -⟩ := modified_key pr hpr
    rw [e1, e2]
    intro he
    exact hk2 ((Option.some.inj he) ▸ hk3)
  · intro q hq pr hpr
    obtain ⟨k, e1, -, hk2⟩ := removed_key q hq
    obtain ⟨k', e2, -, -, hk3⟩ := modified_key pr hpr
    rw [e1, e2]
    intro he
    exact hk2 ((Option.some.inj he) ▸ hk3)

/-- Witness for C10 at a concrete input: the added record is a record of
the new snapshot, and the modified pair's sides carry equal keys. -/
theorem c10_partition_invariants_witness :
    exP2 ∈ exNew ∧ posKey exP1 = posKey exP1v := by
  have h := c10_partition_invariants exOld exNew "T" exChanges (by decide)
  exact ⟨h.1 exP2 (by decide), (h.2.2.1 (exP1, exP1v) (by decide)).2.2.1⟩

/-- Counterexample to Claim C3: with a record lacking `tokenId` on the new
side, `compare_positions` raises `KeyError` while building the dict
(result `none`) instead of skipping the record and returning a ChangeSet
for the remainder. -/
theorem c3_counterexample : compare_positions [] [exNoTok] "T" = none := by decide

/-- Claim C3 (amended): for every pair of input sequences in which some
record lacks a `token_id` field, the diff raises `KeyError` and aborts
without returning a ChangeSet; it does not skip the malformed record. -/
theorem c3_missing_token_aborts (old new : List Position) (now : String)
    (h : (∃ p ∈ old, p.tokenId = none) ∨ (∃ p ∈ new, p.tokenId = none)) :
    compare_positions old new now = none := by
  unfold compare_positions
  rcases h with ⟨p, hp, ht⟩ | ⟨p, hp, ht⟩
  · have hf : tokenedAll old = false := by
      rw [tokenedAll, List.all_eq_false]
      exact ⟨p, hp, by simp [ht]⟩
    simp [hf]
  · have hf : tokenedAll new = false := by
      rw [tokenedAll, List.all_eq_false]
      exact ⟨p, hp, by simp [ht]⟩
    simp [hf]

/-- Witness for the amended C3 at a concrete input (malformed record on
the old side). -/
theorem c3_missing_token_aborts_witness : compare_positions [exNoTok] [exP1] "U" = none :=
  c3_missing_token_aborts [exNoTok] [exP1] "U" (Or.inl ⟨exNoTok, by decide, rfl⟩)

/-- Counterexample to Claim C9: `compare_positions` is not a pure function
of its two input sequences alone — two calls on identical inputs but at
different clock readings return different ChangeSets (the `timestamp`
field copies the clock). -/
theorem c9_counterexample :
    compare_positions [] [] "2024-01-01T00:00:00" ≠ compare_positions [] [] "2024-01-01T00:00:01" := by
  decide

/-- Claim C9 (amended): the diff performs no mutation (it is modelled as a
pure value-level function) and its `added`/`removed`/`modified` partitions
— everything except the `timestamp` field, which copies the clock reading
— depend on nothing but the two input sequences: whether the call raises
is clock-independent, and two successful calls at different clock readings
agree on all three partitions. -/
theorem c9_partitions_pure (old new : List Position) (t t' : String) :
    (compare_positions old new t).isSome = (compare_positions old new t').isSome ∧
    (∀ c c', compare_positions old new t = some c → compare_positions old new t' = some c' →
      c.added = c'.added ∧ c.removed = c'.removed ∧ c.modified = c'.modified ∧
      c.timestamp = t ∧ c'.timestamp = t') := by
  refine ⟨?_, ?_⟩
  · unfold compare_positions
    split <;> rfl
  · intro c c' h h'
    obtain ⟨a1, r1, m1, t1⟩ := compare_positions_eq_some h
    obtain ⟨a2, r2, m2, t2⟩ := compare_positions_eq_some h'
    exact ⟨a1.trans a2.symm, r1.trans r2.symm, m1.trans m2.symm, t1, t2⟩

/-- Witness for the amended C9 at a concrete input: two runs at different
clock readings produce the same partitions. -/
theorem c9_partitions_pure_witness :
    exChanges.added = (Changes.mk [exP2] [] [(exP1, exP1v)] "U").added ∧
    exChanges.removed = (Changes.mk [exP2] [] [(exP1, exP1v)] "U").removed ∧
    exChanges.modified = (Changes.mk [exP2] [] [(exP1, exP1v)] "U").modified ∧
    exChanges.timestamp = "T" ∧ (Changes.mk [exP2] [] [(exP1, exP1v)] "U").timestamp = "U" :=
  (c9_partitions_pure exOld exNew "T" "U").2 exChanges (Changes.mk [exP2] [] [(exP1, exP1v)] "U")
    (by decide) (by decide)

theorem str_append_cancel_left {a b c : String} (h : a ++ b = a ++ c) : b = c := by
  apply String.ext
  have hd := congrArg String.data h
  simp only [String.data_append] at hd
  exact List.append_cancel_left hd

theorem str_append_cancel_right {a b c : String} (h : a ++ b = c ++ b) : a = c := by
  apply String.ext
  have hd := congrArg String.data h
  simp only [String.data_append] at hd
  exact List.append_cancel_right hd

theorem posKey_pyGet {p : Position} {k : String} (h : posKey p = some k) :
    pyGet p.tokenId = k := by
  unfold posKey at h
  cases hv : p.tokenId with
  | none => rw [hv] at h; cases h
  | some v =>
    rw [hv] at h
    simp only [Option.map_some', Option.some.injEq] at h
    simp [pyGet, hv, h]

theorem hash_inj_liquidity {po pn : Position}
    (ht : pyGet po.tokenId = pyGet pn.tokenId)
    (h0 : pyGet po.amount0 = pyGet pn.amount0)
    (h1 : pyGet po.amount1 = pyGet pn.amount1)
    (hu : pyGet po.usd_value = pyGet pn.usd_value)
    (h : calculate_position_hash po = calculate_position_hash pn) :
    pyGet po.liquidity_L = pyGet pn.liquidity_L := by
  unfold calculate_position_hash at h
  rw [ht, h0, h1, hu] at h
  simp only [String.append_assoc] at h
  exact str_append_cancel_right (str_append_cancel_left (str_append_cancel_left h))

theorem hash_inj_amount0 {po pn : Position}
    (ht : pyGet po.tokenId = pyGet pn.tokenId)
    (hl : pyGet po.liquidity_L = pyGet pn.liquidity_L)
    (h1 : pyGet po.amount1 = pyGet pn.amount1)
    (hu : pyGet po.usd_value = pyGet pn.usd_value)
    (h : calculate_position_hash po = calculate_position_hash pn) :
    pyGet po.amount0 = pyGet pn.amount0 := by
  unfold calculate_position_hash at h
  rw [ht, hl, h1, hu] at h
  simp only [String.append_assoc] at h
  exact str_append_cancel_right
    (str_append_cancel_left (str_append_cancel_left
      (str_append_cancel_left (str_append_cancel_left h))))

theorem hash_inj_amount1 {po pn : Position}
    (ht : pyGet po.tokenId = pyGet pn.tokenId)
    (hl : pyGet po.liquidity_L = pyGet pn.liquidity_L)
    (h0 : pyGet po.amount0 = pyGet pn.amount0)
    (hu : pyGet po.usd_value = pyGet pn.usd_value)
    (h : calculate_position_hash po = calculate_position_hash pn) :
    pyGet po.amount1 = pyGet pn.amount1 := by
  unfold calculate_position_hash at h
  rw [ht, hl, h0, hu] at h
  simp only [String.append_assoc] at h
  exact str_append_cancel_right
    (str_append_cancel_left (str_append_cancel_left (str_append_cancel_left
      (str_append_cancel_left (str_append_cancel_left (str_append_cancel_left h))))))

theorem hash_inj_usd {po pn : Position}
    (ht : pyGet po.tokenId = pyGet pn.tokenId)
    (hl : pyGet po.liquidity_L = pyGet pn.liquidity_L)
    (h0 : pyGet po.amount0 = pyGet pn.amount0)
    (h1 : pyGet po.amount1 = pyGet pn.amount1)
    (h : calculate_position_hash po = calculate_position_hash pn) :
    pyGet po.usd_value = pyGet pn.usd_value := by
  unfold calculate_position_hash at h
  rw [ht, hl, h0, h1] at h
  simp only [String.append_assoc] at h
  exact str_append_cancel_left (str_append_cancel_left (str_append_cancel_left
    (str_append_cancel_left (str_append_cancel_left (str_append_cancel_left
      (str_append_cancel_left (str_append_cancel_left h)))))))

/-- Claim C2: for a token present in both snapshots (the dict records of a
common key `k`), changing any ONE of `liquidity_L`, `amount0`, `amount1`,
`usd_value` to a value with a different string form always places the
`(old, new)` record pair in `modified`; when all four of those fields keep
their string forms (for instance only `status`, `p_lower_uset` or
`p_upper_uset` changed), no `modified` entry carries key `k`. -/
theorem c2_fingerprint_sensitivity (old new : List Position) (now : String) (c : Changes)
    (k : String) (po pn : Position)
    (h : compare_positions old new now = some c)
    (hpo : dictGet old k = some po) (hpn : dictGet new k = some pn) :
    (((pyGet po.liquidity_L ≠ pyGet pn.liquidity_L ∧ pyGet po.amount0 = pyGet pn.amount0 ∧
        pyGet po.amount1 = pyGet pn.amount1 ∧ pyGet po.usd_value = pyGet pn.usd_value) ∨
      (pyGet po.liquidity_L = pyGet pn.liquidity_L ∧ pyGet po.amount0 ≠ pyGet pn.amount0 ∧
        pyGet po.amount1 = pyGet pn.amount1 ∧ pyGet po.usd_value = pyGet pn.usd_value) ∨
      (pyGet po.liquidity_L = pyGet pn.liquidity_L ∧ pyGet po.amount0 = pyGet pn.amount0 ∧
        pyGet po.amount1 ≠ pyGet pn.amount1 ∧ pyGet po.usd_value = pyGet pn.usd_value) ∨
      (pyGet po.liquidity_L = pyGet pn.liquidity_L ∧ pyGet po.amount0 = pyGet pn.amount0 ∧
        pyGet po.amount1 = pyGet pn.amount1 ∧ pyGet po.usd_value ≠ pyGet pn.usd_value)) →
      (po, pn) ∈ c.modified) ∧
    ((pyGet po.liquidity_L = pyGet pn.liquidity_L ∧ pyGet po.amount0 = pyGet pn.amount0 ∧
      pyGet po.amount1 = pyGet pn.amount1 ∧ pyGet po.usd_value = pyGet pn.usd_value) →
      ∀ pr ∈ c.modified, posKey pr.1 ≠ some k) := by
  obtain ⟨-, -, hm, -⟩ := compare_positions_eq_some h
  have hko : k ∈ dictKeys old :=
    mem_dictKeys.mpr ⟨po, (dictGet_eq_some hpo).1, (dictGet_eq_some hpo).2⟩
  have hkn : k ∈ dictKeys new :=
    mem_dictKeys.mpr ⟨pn, (dictGet_eq_some hpn).1, (dictGet_eq_some hpn).2⟩
  have ht : pyGet po.tokenId = pyGet pn.tokenId :=
    (posKey_pyGet (dictGet_eq_some hpo).2).trans (posKey_pyGet (dictGet_eq_some hpn).2).symm
  refine ⟨?_, ?_⟩
  · intro hdiff
    have hneq : calculate_position_hash po ≠ calculate_position_hash pn := by
      intro heq
      rcases hdiff with ⟨hd, h0, h1, hu⟩ | ⟨hl, hd, h1, hu⟩ | ⟨hl, h0, hd, hu⟩ | ⟨hl, h0, h1, hd⟩
      · exact hd (hash_inj_liquidity ht h0 h1 hu heq)
      · exact hd (hash_inj_amount0 ht hl h1 hu heq)
      · exact hd (hash_inj_amount1 ht hl h0 hu heq)
      · exact hd (hash_inj_usd ht hl h0 h1 heq)
    rw [hm, mem_modifiedList]
    exact ⟨k, hko, hkn, hpo, hpn, hneq⟩
  · intro ⟨hl, h0, h1, hu⟩ pr hpr hkey
    have heq : calculate_position_hash po = calculate_position_hash pn := by
      unfold calculate_position_hash
      rw [ht, hl, h0, h1, hu]
    rw [hm, mem_modifiedList] at hpr
    obtain ⟨k', -, -, h3, h4, hneq⟩ := hpr
    have hk' : k = k' := Option.some.inj (hkey.symm.trans (dictGet_eq_some h3).2)
    subst hk'
    have e1 : po = pr.1 := Option.some.inj (hpo.symm.trans h3)
    have e2 : pn = pr.2 := Option.some.inj (hpn.symm.trans h4)
    exact hneq (e1 ▸ e2 ▸ heq)

/-- Witness for C2 at a concrete input: changing only `usd_value`
(100 → 150) of the common token places the pair in `modified`. -/
theorem c2_fingerprint_sensitivity_witness : (exP1, exP1v) ∈ exChangesMod.modified := by
  have h := c2_fingerprint_sensitivity [exP1] [exP1v] "T" exChangesMod "1" exP1 exP1v
    (by decide) (by decide) (by decide)
  exact h.1 (Or.inr (Or.inr (Or.inr ⟨rfl, rfl, rfl, by decide⟩)))

/-- Counterexample to Claim C4: a run whose fetch SUCCEEDS (returns a row
list) but whose rows contain a record lacking `tokenId` crashes inside the
diff, so neither the diff result nor the snapshot persistence happens —
contradicting "once the fetch succeeds, the diff and the snapshot
persistence are always both executed". -/
theorem c4_counterexample :
    monitor [] (some [exNoTok]) "T" =
      { persisted := none, notified := false, outcome := .crashed } := by
  decide

/-- Claim C4 (amended): if the fetch fails the run aborts with the stored
snapshot unchanged and no notification; once the fetch succeeds AND the
diff and the aggregate-value computation succeed (no uncaught exception),
the snapshot persistence is executed even when the diff is empty, the
notification step runs only when the ChangeSet has at least one
added/removed/modified entry, and it does run when additionally the
message formats successfully to non-empty text. -/
theorem c4_monitor_flow :
    (∀ (old : List Position) (now : String),
      monitor old none now = { persisted := none, notified := false, outcome := .fetchFailed }) ∧
    (∀ (old ps : List Position) (now : String) (c : Changes) (tv : ℚ),
      compare_positions old ps now = some c → totalValue? ps = some tv →
      ((monitor old (some ps) now).persisted =
        some { positions := ps, timestamp := now, total_count := ps.length, total_value := tv }) ∧
      ((monitor old (some ps) now).notified = true →
        (c.added ≠ [] ∨ c.removed ≠ [] ∨ c.modified ≠ [])) ∧
      (c.added = [] → c.removed = [] → c.modified = [] →
        monitor old (some ps) now =
          { persisted := some (NewData.mk ps now ps.length tv),
            notified := false, outcome := .completed c }) ∧
      (∀ msg, format_change_message c ps now = some msg → msg ≠ "" →
        (c.added ≠ [] ∨ c.removed ≠ [] ∨ c.modified ≠ []) →
        (monitor old (some ps) now).notified = true)) := by
  refine ⟨fun old now => rfl, ?_⟩
  intro old ps now c tv hc htv
  refine ⟨?_, ?_, ?_, ?_⟩
  · simp only [monitor, hc, htv]
    split
    · rfl
    · split <;> rfl
  · simp only [monitor, hc, htv]
    split
    · intro hn; simp at hn
    · rename_i hne
      split
      · intro hn; simp at hn
      · intro _
        simp only [Bool.and_eq_true, List.isEmpty_iff] at hne
        tauto
  · intro ha hr hm
    simp only [monitor, hc, htv]
    have hcond : (c.added.isEmpty && c.removed.isEmpty && c.modified.isEmpty) = true := by
      simp [ha, hr, hm]
    rw [if_pos hcond]
  · intro msg hmsg hne hnonempty
    simp only [monitor, hc, htv]
    have hcond : (c.added.isEmpty && c.removed.isEmpty && c.modified.isEmpty) = false := by
      rcases hnonempty with h | h | h <;> simp [List.isEmpty_iff, h]
    rw [if_neg (by simp [hcond]), hmsg]
    simp [hne]

/-- Witness for the amended C4 at a concrete input: with a well-formed
fetched snapshot the new data is persisted even though nothing failed,
and the notification fires for the non-empty ChangeSet. -/
theorem c4_monitor_flow_witness :
    (monitor exOld (some exNew) "T").persisted =
      some { positions := exNew, timestamp := "T", total_count := 2, total_value := 200 } :=
  (c4_monitor_flow.2 exOld exNew "T" exChanges 200 (by decide)
    (by norm_num [totalValue?, mapOpt, usdVal?, exNew, exP1v, exP2, pyFloatOfValue])).1

/-- Claim C5: the formatter is deterministic — two calls with identical
ChangeSet, identical current positions and the same fixed clock reading
produce identical (byte-identical) output.  The embedding makes
`format_change_message` a pure function of exactly these three inputs,
so the property holds definitionally. -/
theorem c5_formatter_deterministic (c₁ c₂ : Changes) (ps₁ ps₂ : List Position)
    (t₁ t₂ : String) (hc : c₁ = c₂) (hp : ps₁ = ps₂) (ht : t₁ = t₂) :
    format_change_message c₁ ps₁ t₁ = format_change_message c₂ ps₂ t₂ := by
  subst hc; subst hp; subst ht; rfl

/-- Witness for C5 at a concrete input. -/
theorem c5_formatter_deterministic_witness :
    format_change_message exEmptyChanges [exT 1] "T" =
      format_change_message exEmptyChanges [exT 1] "T" :=
  c5_formatter_deterministic exEmptyChanges exEmptyChanges [exT 1] [exT 1] "T" "T" rfl rfl rfl

theorem appendLines_mapOpt (f : α → Option String) (l : List α) :
    ∀ acc, appendLines f l acc = (mapOpt f l).map (fun es => acc ++ joinAll es) := by
  induction l with
  | nil => intro acc; simp [appendLines, mapOpt, joinAll]
  | cons p l ih =>
    intro acc
    simp only [appendLines, mapOpt]
    cases hf : f p with
    | none => simp
    | some b =>
      cases hm : mapOpt f l with
      | none => simp [Option.bind, ih, hm]
      | some es => simp [Option.bind, ih, hm, joinAll, String.append_assoc]

theorem roundHalfEven_zero : roundHalfEven 0 = 0 := by
  simp [roundHalfEven]

theorem formatMoney_zero : formatMoney 0 = "0.00" := by
  simp only [formatMoney]
  rw [zero_mul, roundHalfEven_zero]
  decide

theorem usdVal_exT (t : Int) : usdVal? (exT t) = some 0 := by
  simp [usdVal?, exT, pyFloatOfValue]

theorem entryLine_exT (t : Int) :
    entryLine (exT t) = some ("  • NFT#" ++ toString t ++ " - $0.00\n") := by
  have h1 : (exT t).tokenId = some (.vInt t) := rfl
  simp only [entryLine, h1, usdVal_exT, formatMoney_zero, strOfValue, Option.bind_eq_bind,
    Option.some_bind, Option.some.injEq, String.append_assoc]
  rfl

/-- Claim C7: the formatter emits, for each non-empty partition, a count
line followed by the first (at most) 3 example entries for `added` and
`removed` and the first (at most) 2 for `modified`, in differ order, with
an "N more" line exactly when more entries exist (each block equals its
spec-side reading); in particular 7 added positions render exactly 3
examples plus a "4 more" line. -/
theorem c7_truncation :
    (∀ (l : List Position) (acc : String), addedBlock l acc = addedBlockSpec l acc) ∧
    (∀ (l : List Position) (acc : String), removedBlock l acc = removedBlockSpec l acc) ∧
    (∀ (l : List (Position × Position)) (acc : String),
      modifiedBlock l acc = modifiedBlockSpec l acc) ∧
    addedBlock ex7 "" =
      some ("🆕 新增头寸: 7个\n  • NFT#1 - $0.00\n  • NFT#2 - $0.00\n  • NFT#3 - $0.00\n"
        ++ "  ... 还有4个\n\n") := by
  refine ⟨?_, ?_, ?_, ?_⟩
  · intro l acc
    unfold addedBlock addedBlockSpec
    by_cases he : l.isEmpty
    · simp [he]
    · simp only [he, Bool.false_eq_true, if_false]
      rw [appendLines_mapOpt]
      cases hm : mapOpt entryLine (l.take 3) with
      | none => simp [hm]
      | some es => split <;> simp [String.append_assoc]
  · intro l acc
    unfold removedBlock removedBlockSpec
    by_cases he : l.isEmpty
    · simp [he]
    · simp only [he, Bool.false_eq_true, if_false]
      rw [appendLines_mapOpt]
      cases hm : mapOpt entryLine (l.take 3) with
      | none => simp [hm]
      | some es => split <;> simp [String.append_assoc]
  · intro l acc
    unfold modifiedBlock modifiedBlockSpec
    by_cases he : l.isEmpty
    · simp [he]
    · simp only [he, Bool.false_eq_true, if_false]
      rw [appendLines_mapOpt]
      cases hm : mapOpt modEntry (l.take 2) with
      | none => simp [hm]
      | some es => split <;> simp [String.append_assoc]
  · have h3 : ex7.take 3 = [exT 1, exT 2, exT 3] := rfl
    simp only [addedBlock, ex7, h3, appendLines, entryLine_exT]
    rfl

theorem sortKeyLe_total (a b : SortKey) : sortKeyLe a b = true ∨ sortKeyLe b a = true := by
  cases a <;> cases b <;> simp [sortKeyLe] <;> exact le_total _ _

theorem sortKeyLe_trans {a b c : SortKey} (h1 : sortKeyLe a b = true)
    (h2 : sortKeyLe b c = true) : sortKeyLe a c = true := by
  cases a <;> cases b <;> cases c <;> simp [sortKeyLe] at * <;> exact le_trans h1 h2

theorem mem_insertPosDesc {a x : Position} : ∀ {l : List Position},
    x ∈ insertPosDesc a l ↔ x = a ∨ x ∈ l := by
  intro l
  induction l with
  | nil => simp [insertPosDesc]
  | cons b l ih =>
    rw [insertPosDesc]
    split
    · simp [List.mem_cons]
    · simp only [List.mem_cons, ih]
      tauto

theorem pairwise_insertPosDesc {l : List Position} (a : Position)
    (h : List.Pairwise (fun x y => sortKeyLe (get_sort_key y) (get_sort_key x) = true) l) :
    List.Pairwise (fun x y => sortKeyLe (get_sort_key y) (get_sort_key x) = true)
      (insertPosDesc a l) := by
  induction l with
  | nil => simp [insertPosDesc]
  | cons b l ih =>
    rw [insertPosDesc]
    obtain ⟨hb, hl⟩ := List.pairwise_cons.mp h
    split
    · rename_i hle
      exact List.pairwise_cons.mpr ⟨fun x hx => by
        rcases List.mem_cons.mp hx with rfl | hx'
        · exact hle
        · exact sortKeyLe_trans (hb x hx') hle, h⟩
    · rename_i hnle
      have hba : sortKeyLe (get_sort_key a) (get_sort_key b) = true := by
        rcases sortKeyLe_total (get_sort_key b) (get_sort_key a) with hh | hh
        · exact absurd hh hnle
        · exact hh
      refine List.pairwise_cons.mpr ⟨fun x hx => ?_, ih hl⟩
      rcases mem_insertPosDesc.mp hx with rfl | hx'
      · exact hba
      · exact hb x hx'

theorem pairwise_pySorted (ps : List Position) :
    List.Pairwise (fun x y => sortKeyLe (get_sort_key y) (get_sort_key x) = true)
      (pySorted ps) := by
  induction ps with
  | nil => simp [pySorted]
  | cons a ps ih => exact pairwise_insertPosDesc a ih

theorem length_insertPosDesc (a : Position) : ∀ (l : List Position),
    (insertPosDesc a l).length = l.length + 1 := by
  intro l
  induction l with
  | nil => rfl
  | cons b l ih =>
    rw [insertPosDesc]
    split
    · rfl
    · simp [ih]

theorem length_pySorted (ps : List Position) : (pySorted ps).length = ps.length := by
  induction ps with
  | nil => rfl
  | cons a ps ih =>
    rw [pySorted, length_insertPosDesc, ih]
    rfl

theorem mapOpt_length {f : α → Option β} : ∀ {l : List α} {bs : List β},
    mapOpt f l = some bs → bs.length = l.length := by
  intro l
  induction l with
  | nil => intro bs h; cases h; rfl
  | cons a l ih =>
    intro bs h
    rw [mapOpt] at h
    cases hf : f a with
    | none => rw [hf] at h; cases h
    | some b =>
      rw [hf] at h
      cases hm : mapOpt f l with
      | none => rw [hm] at h; cases h
      | some cs =>
        rw [hm] at h
        cases h
        simp [ih hm]

theorem renderTop_mapOpt (l : List Position) : ∀ (i slen : Nat) (acc : String),
    renderTop l i slen acc =
      (mapOpt format_position_display l).map (fun es => acc ++ joinSep es i slen) := by
  induction l with
  | nil => intro i slen acc; simp [renderTop, mapOpt, joinSep]
  | cons p l ih =>
    intro i slen acc
    simp only [renderTop, mapOpt]
    cases hd : format_position_display p with
    | none => simp
    | some d =>
      cases hm : mapOpt format_position_display l with
      | none => simp [Option.bind, ih, hm]
      | some es => simp [Option.bind, ih, hm, joinSep, sepAfter, String.append_assoc]

theorem joinSep_eq_joinTwoNl : ∀ (es : List String) (i slen : Nat),
    i + es.length = min 5 slen → joinSep es i slen = joinTwoNl es := by
  intro es
  induction es with
  | nil => intro i slen _; rfl
  | cons e rest ih =>
    intro i slen h
    cases rest with
    | nil =>
      have hsep : sepAfter i slen = "" := by
        rw [sepAfter, if_neg]
        simp only [List.length_cons, List.length_nil] at h
        omega
      simp [joinSep, joinTwoNl, hsep]
    | cons e2 rest2 =>
      have hsep : sepAfter i slen = "\n\n" := by
        rw [sepAfter, if_pos]
        simp only [List.length_cons] at h
        omega
      have hrec := ih (i + 1) slen (by simp only [List.length_cons] at h ⊢; omega)
      rw [joinSep, hsep, hrec]
      rfl

theorem currentBlock_eq_spec (ps : List Position) (acc : String) :
    currentBlock ps acc = currentBlockSpec ps acc := by
  unfold currentBlock currentBlockSpec
  by_cases he : ps.isEmpty
  · simp [he]
  · simp only [he, Bool.false_eq_true, if_false]
    rw [renderTop_mapOpt]
    cases hm : mapOpt format_position_display ((pySorted ps).take 5) with
    | none => simp
    | some es =>
      have hlen : es.length = min 5 ps.length := by
        rw [mapOpt_length hm, List.length_take, length_pySorted]
      have hjoin : joinSep es 0 (pySorted ps).length = joinTwoNl es := by
        rw [length_pySorted]
        exact joinSep_eq_joinTwoNl es 0 ps.length (by omega)
      cases htv : totalValue? ps with
      | none => simp [Option.bind, hjoin]
      | some tv =>
        simp only [Option.map_some', Option.some_bind, Option.bind_eq_bind, hjoin,
          Option.map_eq_map, Option.some.injEq]
        rw [footerStr]
        split <;> simp [String.append_assoc]

/-- Claim C6: the current-state section renders exactly the first 5
positions of the stable sort by `p_upper_uset` descending (the section
equals its spec-side reading for every input); the `'+'`-bearing
unbounded sentinel sorts as `float('inf')` (the greatest key), a value
failing numeric parsing sorts as `0`, the sorted list is descending by
sort key; and in particular upper prices `[10, "1e+400", 5]` sort as
`["1e+400", 10, 5]`. -/
theorem c6_current_state_sorting :
    (∀ (ps : List Position) (acc : String), currentBlock ps acc = currentBlockSpec ps acc) ∧
    (∀ (p : Position) (s : String), p.p_upper_uset = some (.vStr s) →
      containsPlus s = true → get_sort_key p = .inf) ∧
    (∀ (p : Position) (s : String), p.p_upper_uset = some (.vStr s) →
      containsPlus s = false → pyFloat? s = none → get_sort_key p = .val 0) ∧
    (∀ (k : SortKey), sortKeyLe k .inf = true) ∧
    (∀ ps, List.Pairwise (fun x y => sortKeyLe (get_sort_key y) (get_sort_key x) = true)
      (pySorted ps)) ∧
    pySorted [exTen, exU, exFive] = [exU, exTen, exFive] := by
  refine ⟨currentBlock_eq_spec, ?_, ?_, ?_, pairwise_pySorted, by decide⟩
  · intro p s hp hc
    rw [get_sort_key, hp]
    simp [hc]
  · intro p s hp hc hf
    rw [get_sort_key, hp]
    simp [hc, hf]
  · intro k
    cases k <;> rfl

/-- Witness for C6 at concrete inputs: the sentinel string sorts as
`inf`, an unparsable string sorts as `0`, and the section-refinement
instantiates at a concrete list. -/
theorem c6_current_state_sorting_witness :
    get_sort_key exU = SortKey.inf ∧ get_sort_key exBad = SortKey.val 0 ∧
    currentBlock [exU] "" = currentBlockSpec [exU] "" :=
  ⟨c6_current_state_sorting.2.1 exU "1e+400" rfl (by decide),
   c6_current_state_sorting.2.2.1 exBad "zz" rfl (by decide) (by decide),
   c6_current_state_sorting.1 [exU] ""⟩

/-- Counterexample to Claim C8: for the EMPTY sequence of current
positions the whole current-state body (including the aggregate footer)
is skipped — the output ends with the section header and contains no
stats footer at all, so the output does not end with a footer for every
sequence of positions. -/
theorem c8_counterexample :
    format_change_message exEmptyChanges [] "T" =
      some "🔔 LP头寸变动警报\n⏰ 时间: T\n\n📊 当前状态:\n\n" ∧
    ¬ ("📈 统计").data <:+: ("🔔 LP头寸变动警报\n⏰ 时间: T\n\n📊 当前状态:\n\n").data :=
  ⟨rfl, by decide⟩

/-- Claim C8 (amended): for every NON-EMPTY sequence of current
positions, whenever the formatter returns output, that output ends with
the aggregate footer computed over ALL current positions — total count,
`ACTIVE` count and the sum of `usd_value` — with the "not shown" line
appended exactly when the total count exceeds 5. -/
theorem c8_footer (cs : Changes) (ps : List Position) (now : String) (out : String)
    (hps : ps ≠ []) (h : format_change_message cs ps now = some out) :
    ∃ tv, totalValue? ps = some tv ∧ (footerStr ps tv).data <:+ out.data := by
  unfold format_change_message at h
  simp only [Option.bind_eq_bind, Option.bind_eq_some] at h
  obtain ⟨m1, h1, m2, h2, m3, h3, hcur⟩ := h
  rw [currentBlock, if_neg (by simp [List.isEmpty_iff, hps])] at hcur
  simp only [Option.bind_eq_bind, Option.bind_eq_some, Option.some.injEq] at hcur
  obtain ⟨r, hr, tv, htv, hout⟩ := hcur
  refine ⟨tv, htv, r.data, ?_⟩
  rw [← hout]
  by_cases h5 : 5 < ps.length
  · simp [footerStr, h5, String.data_append, List.append_assoc]
  · simp [footerStr, h5, String.data_append, List.append_assoc]

theorem formatFixed4_zero : formatFixed4 0 = "0.0000" := by
  simp only [formatFixed4]
  rw [zero_mul, roundHalfEven_zero]
  decide

theorem format_price_int_zero : format_price (.vInt 0) = "0.0000" := by
  simp only [format_price, Int.cast_zero]
  rw [if_neg (by norm_num)]
  exact formatFixed4_zero

theorem display_exT1 :
    format_position_display (exT 1) =
      some ("  • NFT#1\n    💰 总价值: $0.00\n    📈 价格区间: 0.0000 - 0.0000 USDT"
        ++ "\n    🎯 状态: 🟡 OUT_OF_RANGE") := by
  simp only [format_position_display, usdVal_exT, Option.bind_eq_bind, Option.some_bind]
  rw [formatMoney_zero,
    show format_price ((exT 1).p_lower_uset.getD (Value.vInt 0)) = "0.0000" from
      format_price_int_zero,
    show format_price ((exT 1).p_upper_uset.getD (Value.vInt 0)) = "0.0000" from
      format_price_int_zero]
  rfl

theorem totalValue_exT1 : totalValue? [exT 1] = some 0 := by
  simp [totalValue?, mapOpt, usdVal_exT, List.foldl]

theorem exMsgOne_eq : format_change_message exEmptyChanges [exT 1] "T" = some exMsgOne := by
  show currentBlock [exT 1]
      ("🔔 LP头寸变动警报\n⏰ 时间: T\n\n" ++ "📊 当前状态:\n\n") = some exMsgOne
  rw [currentBlock, if_neg (by decide)]
  have hrt : renderTop ((pySorted [exT 1]).take 5) 0 (pySorted [exT 1]).length
      ("🔔 LP头寸变动警报\n⏰ 时间: T\n\n" ++ "📊 当前状态:\n\n") =
      some ("🔔 LP头寸变动警报\n⏰ 时间: T\n\n📊 当前状态:\n\n"
        ++ ("  • NFT#1\n    💰 总价值: $0.00\n    📈 价格区间: 0.0000 - 0.0000 USDT"
          ++ "\n    🎯 状态: 🟡 OUT_OF_RANGE")) := by
    simp only [show (pySorted [exT 1]).take 5 = [exT 1] from rfl,
      show (pySorted [exT 1]).length = 1 from rfl, renderTop, display_exT1,
      Option.bind_eq_bind, Option.some_bind]
    rfl
  simp only [hrt, Option.bind_eq_bind, Option.some_bind, totalValue_exT1]
  rw [formatMoney_zero]
  rfl

/-- Witness for the amended C8 at a concrete input: a single minimal
position formats successfully and the output ends with the footer
`📈 统计: 1个头寸, 0个活跃, 总价值: $0.00`. -/
theorem c8_footer_witness :
    ∃ tv, totalValue? [exT 1] = some tv ∧
      (footerStr [exT 1] tv).data <:+ (exMsgOne).data :=
  c8_footer exEmptyChanges [exT 1] "T" exMsgOne (by decide) exMsgOne_eq
